import Mathlib

/-!
Shallow embedding of the AreaVue geodetic / staking core
(`src/services/geoService.ts`, the point-add and GPS-aggregation logic of
`src/services/geminiService.ts`), together with theorems settling the
frozen claims about it.

Numeric model: a finite (non-NaN) JavaScript double is modelled as a real
number; a JavaScript number that may be NaN is modelled as `Option ℝ`
(`none` = NaN).  The source functions guard their inputs with `isNaN`
checks, which the `Option` layer reproduces exactly.  Inside a guarded
body the arithmetic is real arithmetic; the only place the source can
produce a fresh non-finite value from finite inputs is the division in
`snapToBaseline` (0/0 = NaN), which is modelled explicitly.
-/

open Real

noncomputable section

/-- JavaScript number: `none` models NaN, `some x` a finite double. -/
abbrev JNum : Type := Option ℝ

instance : Coe ℝ JNum := ⟨fun x => some x⟩

/-- Earth radius in meters (`const R = 6371e3` in geoService.ts). -/
def R : ℝ := 6371000

/-- JavaScript `Math.atan2 y x`: the argument of the complex number
`x + y*i`, in `(-π, π]`, with `atan2 0 0 = 0` (matching JS). -/
def atan2 (y x : ℝ) : ℝ := Complex.arg ⟨x, y⟩

/-- Truncation toward zero of a real number, as JS casts for `%`. -/
def truncR (q : ℝ) : ℝ := if 0 ≤ q then (⌊q⌋ : ℤ) else (⌈q⌉ : ℤ)

/-- JavaScript remainder `a % b` on finite doubles with `b ≠ 0`:
`a - b * trunc (a / b)` (sign follows the dividend). -/
def jsRem (a b : ℝ) : ℝ := a - b * truncR (a / b)

/-- Embedding of `calculateDistance` (geoService.ts:9-28): NaN guard on the
four inputs, haversine formula, clamp of the squared half-chord `a` to
`[0,1]`, great-circle distance `R * c`.  For finite real inputs the final
`isNaN(d)` check of the source can never fire (the clamp keeps both square
roots defined and `atan2` is total), so it is not represented. -/
def calculateDistance (lat1 lon1 lat2 lon2 : JNum) : ℝ :=
  match lat1, lon1, lat2, lon2 with
  | some lat1, some lon1, some lat2, some lon2 =>
    let φ1 := lat1 * π / 180
    let φ2 := lat2 * π / 180
    let Δφ := (lat2 - lat1) * π / 180
    let Δlng := (lon2 - lon1) * π / 180
    let a := Real.sin (Δφ / 2) * Real.sin (Δφ / 2) +
      Real.cos φ1 * Real.cos φ2 * Real.sin (Δlng / 2) * Real.sin (Δlng / 2)
    let a2 := max 0 (min 1 a)
    let c := 2 * atan2 (Real.sqrt a2) (Real.sqrt (1 - a2))
    R * c
  | _, _, _, _ => 0

/-- Embedding of `calculateBearing` (geoService.ts:30-39): NaN guard,
spherical initial-bearing formula, normalisation of `θ·180/π + 360` by the
JS `% 360`.  The dividend is positive (θ ∈ (-π, π]), and for finite real
inputs the final `isNaN(bearing)` check can never fire. -/
def calculateBearing (lat1 lon1 lat2 lon2 : JNum) : ℝ :=
  match lat1, lon1, lat2, lon2 with
  | some lat1, some lon1, some lat2, some lon2 =>
    let y := Real.sin ((lon2 - lon1) * π / 180) * Real.cos (lat2 * π / 180)
    let x := Real.cos (lat1 * π / 180) * Real.sin (lat2 * π / 180) -
      Real.sin (lat1 * π / 180) * Real.cos (lat2 * π / 180) * Real.cos ((lon2 - lon1) * π / 180)
    let θ := atan2 y x
    jsRem (θ * 180 / π + 360) 360
  | _, _, _, _ => 0

/-- Left/Right tag used by the staking primitives. -/
inductive Direction where
  | Left
  | Right
deriving DecidableEq, Repr

/-- Closed form of the loop `while (diff > 180) diff -= 360` of
`calculateCollinearity`: each pass subtracts 360 while the value exceeds
180, so the loop runs exactly `max 0 ⌈(d-180)/360⌉` times. -/
def collinearitySub (d : ℝ) : ℝ := d - 360 * (max 0 ⌈(d - 180) / 360⌉ : ℤ)

/-- Closed form of the loop `while (diff < -180) diff += 360`: each pass
adds 360 while the value is below -180, so the loop runs exactly
`max 0 ⌈(-180-d)/360⌉` times. -/
def collinearityAdd (d : ℝ) : ℝ := d + 360 * (max 0 ⌈(-180 - d) / 360⌉ : ℤ)

/-- The two normalisation loops of `calculateCollinearity` in sequence
(normalises into `[-180, 180]`). -/
def norm180 (d : ℝ) : ℝ := collinearityAdd (collinearitySub d)

/-- Embedding of `calculateCollinearity` (geoService.ts:149-169): NaN
guard on all five inputs (returning error 0, direction Right), actual
bearing from start to current, difference to the target bearing
normalised by the two while-loops, absolute error and turn direction. -/
def calculateCollinearity (startLat startLng targetBearing currentLat currentLng : JNum) :
    ℝ × Direction :=
  match startLat, startLng, targetBearing, currentLat, currentLng with
  | some sLat, some sLng, some tb, some cLat, some cLng =>
    let actualBearing := calculateBearing (some sLat) (some sLng) (some cLat) (some cLng)
    let diff := norm180 (actualBearing - tb)
    (|diff|, if diff > 0 then Direction.Right else Direction.Left)
  | _, _, _, _, _ => (0, Direction.Right)

/-- Embedding of `snapToBaseline` (geoService.ts:196-215).  The guard
returns the (possibly NaN) start coordinates when any input is NaN.  The
body projects onto the baseline: the division is by `dLat² + dLng²`; when
the baseline is degenerate (start = end) this is `0/0`, i.e. NaN, which
then propagates through `Math.min`/`Math.max` and the final additions —
modelled by `none`.  (JS `x/0` with `x ≠ 0` would be ±∞, but a zero
denominator here forces a zero numerator, so `none` is exactly NaN.) -/
def snapToBaseline (startLat startLng endLat endLng pLat pLng : JNum) : JNum × JNum :=
  match startLat, startLng, endLat, endLng, pLat, pLng with
  | some sLat, some sLng, some eLat, some eLng, some pLat0, some pLng0 =>
    let dLat := eLat - sLat
    let dLng := eLng - sLng
    let t : Option ℝ :=
      if dLat * dLat + dLng * dLng = 0 then none
      else some (((pLat0 - sLat) * dLat + (pLng0 - sLng) * dLng) / (dLat * dLat + dLng * dLng))
    let clampedT : Option ℝ := t.map (fun t0 => max 0 (min 1 t0))
    match clampedT with
    | some ct => (some (sLat + ct * dLat), some (sLng + ct * dLng))
    | none => (none, none)
  | _, _, _, _, _, _ => (startLat, startLng)

/-- Point-kind tag (`PointType` in types.ts). -/
inductive PointType where
  | GPS
  | MANUAL
  | STAKING
  | INTERMEDIATE
  | CORNER
deriving DecidableEq, BEq, Repr

/-- The `GeoPoint` record of types.ts, with the fields the embedded
functions read or write.  Coordinates and derived numeric fields are JS
numbers (`none` = NaN for `lat`/`lng`; for the optional fields `none`
also covers `undefined`). -/
structure Pt where
  id : String
  lat : JNum
  lng : JNum
  type : PointType := PointType.GPS
  accuracy : JNum := none
  altitude : JNum := none
  timestamp : ℤ := 0
  label : Option String := none
  bearing : JNum := none
  distance : JNum := none
  turnDirection : Option Direction := none
  collinearityError : JNum := none
  isSnapped : Bool := false

/-- The `Survey` record of types.ts (fields used by the embedded code). -/
structure Survey where
  id : String
  name : String
  points : List Pt
  created : ℤ
  updated : ℤ

/-- The point filter both metric functions apply first:
`points.filter(p => !isNaN(p.lat) && !isNaN(p.lng))`.  Only NaN is
checked — there is no latitude/longitude range check in the source. -/
def validPoints (points : List Pt) : List Pt :=
  points.filter (fun p => p.lat.isSome && p.lng.isSome)

/-- Outcome of one call into the external `proj4` library. -/
inductive ProjOutcome where
  | ok (easting northing : ℝ)
  | thrown
  | nanResult

/-- The external `proj4` projection, abstracted: for each (lat, lng) it
either yields planar coordinates, throws, or yields a NaN coordinate. -/
def Projector : Type := ℝ → ℝ → ProjOutcome

/-- Hemisphere tag of `latLngToUtm`. -/
inductive Hemi where
  | N
  | S
deriving DecidableEq, Repr

/-- Result record of `latLngToUtm`. -/
structure UtmResult where
  easting : ℝ
  northing : ℝ
  zone : ℤ
  hemi : Hemi

/-- Embedding of `latLngToUtm` (geoService.ts:125-146), parameterised by
the runtime availability of `proj4` (`none` = `typeof proj4 ===
'undefined'`).  NaN input yields the zeroed result; without `proj4` the
simple linear mock is used; with `proj4` a thrown exception is caught and
yields a zeroed result with zone 0, and a NaN projection result yields a
zeroed result with the computed zone.  In particular this function never
throws to its caller. -/
def latLngToUtm (proj4? : Option Projector) (lat lng : JNum) : UtmResult :=
  match lat, lng with
  | some lat, some lng =>
    match proj4? with
    | none =>
      { easting := lng * 111320, northing := lat * 110574, zone := 0,
        hemi := if 0 ≤ lat then Hemi.N else Hemi.S }
    | some proj =>
      let zoneNum : ℤ := ⌊(lng + 180) / 6⌋ + 1
      let hemi := if 0 ≤ lat then Hemi.N else Hemi.S
      match proj lat lng with
      | ProjOutcome.ok easting northing =>
        { easting := easting, northing := northing, zone := zoneNum, hemi := hemi }
      | ProjOutcome.nanResult =>
        { easting := 0, northing := 0, zone := zoneNum, hemi := hemi }
      | ProjOutcome.thrown =>
        { easting := 0, northing := 0, zone := 0, hemi := hemi }
  | _, _ => { easting := 0, northing := 0, zone := 0, hemi := Hemi.N }

/-- The shoelace accumulation loop shared by both paths of
`calculateArea`: for `i` in `[0, n)` it adds
`x[i]*y[(i+1)%n] - x[(i+1)%n]*y[i]`; the list `c.zip (c.rotate 1)` is
exactly the list of pairs `(P_i, P_(i+1)%n)`. -/
def shoelaceSum (c : List (ℝ × ℝ)) : ℝ :=
  ((c.zip (c.rotate 1)).map (fun pq => pq.1.1 * pq.2.2 - pq.2.1 * pq.1.2)).sum

/-- Comparison used for the sign factors of the fallback path
(`p.lng > origin.lng`); JS comparison with NaN is false. -/
def jsGT (a b : JNum) : Prop :=
  match a, b with
  | some x, some y => x > y
  | _, _ => False

instance (a b : JNum) : Decidable (jsGT a b) :=
  match a, b with
  | some x, some y => inferInstanceAs (Decidable (x > y))
  | some _, none => inferInstanceAs (Decidable False)
  | none, some _ => inferInstanceAs (Decidable False)
  | none, none => inferInstanceAs (Decidable False)

/-- The local-tangent x/y coordinates the fallback path of
`calculateArea` builds for each point relative to `origin` (the first
valid point): `x` from the longitude offset, `y` from the latitude
offset, each signed by a plain coordinate comparison. -/
def fallbackCoord (origin p : Pt) : ℝ × ℝ :=
  (calculateDistance origin.lat origin.lng origin.lat p.lng *
      (if jsGT p.lng origin.lng then 1 else -1),
    calculateDistance origin.lat origin.lng p.lat origin.lng *
      (if jsGT p.lat origin.lat then 1 else -1))

/-- The spherical fallback path of `calculateArea` (geoService.ts:80-93)
over an already-filtered point list. -/
def sphericalArea (vp : List Pt) : ℝ :=
  match vp with
  | [] => 0
  | origin :: _ => |shoelaceSum (vp.map (fallbackCoord origin))| / 2

/-- The UTM path of `calculateArea` (geoService.ts:63-77) over an
already-filtered point list: every point is projected by `latLngToUtm`
and the shoelace formula is applied to the resulting easting/northing
pairs — including the zeroed pairs of failed projections. -/
def utmArea (proj4? : Option Projector) (vp : List Pt) : ℝ :=
  |shoelaceSum (vp.map (fun p =>
    let u := latLngToUtm proj4? p.lat p.lng
    (u.easting, u.northing)))| / 2

/-- Embedding of `calculateArea` (geoService.ts:56-94): empty/short-list
guards, NaN filter, then the UTM path when `proj4` is available and the
spherical fallback when it is not.  The source wraps the UTM path in
`try`/`catch` with the fallback in the `catch`, but `latLngToUtm` catches
internally and never throws, so that fallback is unreachable; the final
`isNaN` checks cannot fire on real values. -/
def calculateArea (proj4? : Option Projector) (points : List Pt) : ℝ :=
  if points.length < 3 then 0
  else
    let vp := validPoints points
    if vp.length < 3 then 0
    else
      match proj4? with
      | some _ => utmArea proj4? vp
      | none => sphericalArea vp

/-- Embedding of `calculatePerimeter` (geoService.ts:96-109): NaN filter,
guard for fewer than 2 valid points, sum of consecutive distances
(`vp.zip vp.tail` is exactly the pairs `(vp[i], vp[i+1])`), plus the
closing edge from last back to first when more than 2 points remain. -/
def calculatePerimeter (points : List Pt) : ℝ :=
  let vp := validPoints points
  match vp with
  | p0 :: p1 :: rest =>
    let vl := p0 :: p1 :: rest
    let consec :=
      ((vl.zip vl.tail).map (fun pq =>
        calculateDistance pq.1.lat pq.1.lng pq.2.lat pq.2.lng)).sum
    if 2 < vl.length then
      consec + calculateDistance (vl.getLast (List.cons_ne_nil _ _)).lat
        (vl.getLast (List.cons_ne_nil _ _)).lng p0.lat p0.lng
    else consec
  | _ => 0

/-- The `StakingState` record of types.ts.  Nullable numbers are
`Option ℝ`, nullable ids `Option String`. -/
structure StakingState where
  isActive : Bool
  currentBearing : Option ℝ
  targetBearing : Option ℝ
  strictCollinearity : Bool
  collinearityTolerance : ℝ
  lastPosition : Option (ℝ × ℝ) := none
  baselineStartId : Option String := none
  baselineEndId : Option String := none
  baselineBearing : Option ℝ := none
  baselineDistance : Option ℝ := none

/-- The JS fragment `if (!point.label) point.label = <l>` used for both
the `S<n>` staking labels and the `i<n>` intermediate labels (a missing
label is `none`; the source's falsy check also covers the empty string,
which never occurs as an assigned label). -/
def withLabel (point : Pt) (l : String) : Pt :=
  if point.label.isNone then { point with label := some l } else point

/-- The intermediate-snapping transform of `addPointToSurvey`
(geminiService.ts:268-280): when both baseline ids are set (non-null,
JS-truthy) and both referenced points are found in the previous point
list, the new point is reprojected onto the baseline, retagged
`INTERMEDIATE` and marked snapped, receiving an `i<n>` label if it has
none. -/
def snapTransform (staking : StakingState) (prev : Survey) (point : Pt) : Pt :=
  match staking.baselineStartId, staking.baselineEndId with
  | some sid, some eid =>
    match prev.points.find? (fun p => p.id == sid), prev.points.find? (fun p => p.id == eid) with
    | some s, some e =>
      let snapped := snapToBaseline s.lat s.lng e.lat e.lng point.lat point.lng
      withLabel { point with lat := snapped.1, lng := snapped.2, type := PointType.INTERMEDIATE, isSnapped := true }
        ("i" ++ toString ((prev.points.filter (fun p => p.type == PointType.INTERMEDIATE)).length + 1))
    | _, _ => point
  | _, _ => point

/-- The final push of `addPointToSurvey` (geminiService.ts:282-285): the
(possibly snapped) point is appended and the survey timestamp updated. -/
def appendPoint (staking : StakingState) (prev : Survey) (point : Pt) (now : ℤ) : Survey :=
  { prev with points := prev.points ++ [snapTransform staking prev point], updated := now }

/-- Embedding of `addPointToSurvey` (geminiService.ts:242-287) as a pure
function from the staking session, the previous survey, the incoming
point and the current time to the updated survey and session.  The
staking block runs when staking is active and the sequence is non-empty:
it stamps `distance`/`bearing` from the last point, assigns an `S<n>`
label if none, and then either (exactly one previous point) establishes
`currentBearing` from the just-computed bearing via JS `point.bearing ||
null` — which maps a bearing of exactly 0 to null — or (two or more
previous points, non-null `currentBearing`) computes the collinearity
error against the session's `currentBearing` and, in strict mode with the
error above tolerance, rejects the point by returning the previous survey
and session unchanged.  `targetBearing` is never read here. -/
def addPointToSurvey (staking : StakingState) (prev : Survey) (point : Pt) (now : ℤ) :
    Survey × StakingState :=
  match prev.points.getLast? with
  | some last =>
    if staking.isActive then
      let d := calculateDistance last.lat last.lng point.lat point.lng
      let b := calculateBearing last.lat last.lng point.lat point.lng
      let point := { point with distance := some d, bearing := some b }
      let stakingCount := (prev.points.filter (fun p => p.type == PointType.STAKING)).length
      let point := withLabel point ("S" ++ toString (stakingCount + 1))
      if prev.points.length == 1 then
        (appendPoint staking prev point now,
          { staking with currentBearing := if b = 0 then none else some b })
      else
        match staking.currentBearing with
        | some cb =>
          let err := (calculateCollinearity last.lat last.lng (some cb) point.lat point.lng).1
          let point := { point with collinearityError := some err }
          if staking.strictCollinearity ∧ err > staking.collinearityTolerance then
            (prev, staking)
          else
            (appendPoint staking prev point now, staking)
        | none => (appendPoint staking prev point now, staking)
    else
      (appendPoint staking prev point now, staking)
  | none => (appendPoint staking prev point now, staking)

/-- One raw geolocation sample of the GPS-averaging window
(`gpsAveraging.samples` entries in geminiService.ts): position, reported
accuracy radius and altitude, either possibly absent/NaN. -/
structure RawSample where
  lat : ℝ
  lng : ℝ
  accuracy : JNum := none
  altitude : JNum := none

/-- The per-sample weight of `finishGPSCollection`
(`const w = 1 / (s.accuracy * s.accuracy || 1)`): a missing accuracy
(NaN product) or an accuracy of 0 makes `accuracy² || 1` equal to 1. -/
def jsWeight (acc : JNum) : ℝ :=
  match acc with
  | none => 1
  | some a => if a * a = 0 then 1 else 1 / (a * a)

/-- The `samples.forEach` accumulation loop of `finishGPSCollection`
(geminiService.ts:192-199): running sums of `lat*w`, `lng*w`,
`(altitude || 0)*w` and `w`. -/
def gpsSums (samples : List RawSample) : ℝ × ℝ × ℝ × ℝ :=
  samples.foldl
    (fun acc s =>
      match acc with
      | (latSum, lngSum, altSum, weightSum) =>
        let w := jsWeight s.accuracy
        (latSum + s.lat * w, lngSum + s.lng * w, altSum + s.altitude.getD 0 * w, weightSum + w))
    (0, 0, 0, 0)

/-- JS addition on possibly-NaN numbers (NaN absorbs). -/
def jadd (a b : JNum) : JNum :=
  match a, b with
  | some x, some y => some (x + y)
  | _, _ => none

/-- The accuracy accumulator of `finishGPSCollection`
(`samples.reduce((acc, s) => acc + s.accuracy, 0)`): a missing accuracy
turns the running sum into NaN. -/
def accSum (samples : List RawSample) : JNum :=
  samples.foldl (fun acc s => jadd acc s.accuracy) (some 0)

/-- The aggregated point data produced by `finishGPSCollection`. -/
structure GpsAvg where
  lat : ℝ
  lng : ℝ
  altitude : ℝ
  accuracy : JNum

/-- Embedding of the aggregation core of `finishGPSCollection`
(geminiService.ts:182-222): with no samples the function alerts and
returns early (`none` here); otherwise the weighted position sums and the
unweighted mean accuracy are computed.  The subsequent threshold
confirmation dialog and the construction of the labelled `GeoPoint` do
not change these values and are not modelled. -/
def finishGPSCollection (samples : List RawSample) : Option GpsAvg :=
  match samples with
  | [] => none
  | _ :: _ =>
    match gpsSums samples with
    | (latSum, lngSum, altSum, weightSum) =>
      let avgAccuracy : JNum := (accSum samples).map (fun t => t / samples.length)
      some { lat := latSum / weightSum, lng := lngSum / weightSum, altitude := altSum / weightSum, accuracy := avgAccuracy }

/-- The collinearity-error recording of `addGpsPoint` in App.tsx
(lines 235-241): an error is recorded only when `targetBearing` is set,
as the absolute two-loop-normalised difference between the achieved
bearing and `targetBearing`; the session's `currentBearing` is not
consulted. -/
def appCollinearityError (targetBearing : Option ℝ) (bearing : ℝ) : JNum :=
  match targetBearing with
  | some tb => some |norm180 (bearing - tb)|
  | none => none

/-- Claim-side predicate (spec §3): a point is in range when its latitude
lies in `[-90, 90]` and its longitude in `[-180, 180]` (NaN fails). -/
def specInRange (p : Pt) : Prop :=
  match p.lat, p.lng with
  | some la, some ln => -90 ≤ la ∧ la ≤ 90 ∧ -180 ≤ ln ∧ ln ≤ 180
  | _, _ => False

instance (p : Pt) : Decidable (specInRange p) :=
  match hl : p.lat, hn : p.lng with
  | some la, some ln => by
    unfold specInRange; rw [hl, hn]; exact inferInstance
  | some _, none => by unfold specInRange; rw [hl, hn]; exact inferInstance
  | none, some _ => by unfold specInRange; rw [hl, hn]; exact inferInstance
  | none, none => by unfold specInRange; rw [hl, hn]; exact inferInstance

/-- Claim-side weight of the sample aggregation (spec §4.5): `1/accuracy²`,
with an accuracy of 0 or a missing accuracy giving weight 1. -/
def specWeight (acc : JNum) : ℝ :=
  match acc with
  | none => 1
  | some a => if a = 0 then 1 else 1 / a ^ 2

/-- Claim-side reference bearing of the Tracking transition (spec §4.4
rule 3): the explicit `targetBearing` when set, else the session's running
`currentBearing`. -/
def specReferenceBearing (st : StakingState) : Option ℝ :=
  match st.targetBearing with
  | some tb => some tb
  | none => st.currentBearing

/-- Claim-side relation of C9: two bearings differ by exactly 180 degrees
modulo 360. -/
def specDiffBy180 (b1 b2 : ℝ) : Prop :=
  ∃ k : ℤ, b1 - b2 = 180 + 360 * k

end

noncomputable section

/-- Concrete fixture: point at (0°, 0°). -/
def exP1 : Pt := { id := "p1", lat := some 0, lng := some 0 }

/-- Concrete fixture: point at (0°, 1°), due east of `exP1`. -/
def exP2 : Pt := { id := "p2", lat := some 0, lng := some 1 }

/-- Concrete fixture: point at (0°, 2°), due east of `exP2`. -/
def exP3 : Pt := { id := "p3", lat := some 0, lng := some 2 }

/-- Concrete fixture: point at (1°, 0°), due north of `exP1`. -/
def exPN : Pt := { id := "pn", lat := some 1, lng := some 0 }

/-- Concrete fixture: survey holding the single point `exP1`. -/
def exSurvey1 : Survey := { id := "s", name := "n", points := [exP1], created := 0, updated := 0 }

/-- Concrete fixture: survey holding `[exP1, exP2]`. -/
def exSurvey2 : Survey := { id := "s", name := "n", points := [exP1, exP2], created := 0, updated := 0 }

/-- Concrete fixture: active strict staking session, running bearing 0°,
tolerance 1°. -/
def exStrictStaking : StakingState :=
  { isActive := true, currentBearing := some 0, targetBearing := none,
    strictCollinearity := true, collinearityTolerance := 1 }

/-- Concrete fixture: active staking session with no established bearing. -/
def exStakingNB : StakingState :=
  { isActive := true, currentBearing := none, targetBearing := none,
    strictCollinearity := false, collinearityTolerance := 10 }

/-- Concrete fixture: active non-strict session with running bearing 0°
and explicit target bearing 90°. -/
def exTargetStaking : StakingState :=
  { isActive := true, currentBearing := some 0, targetBearing := some 90,
    strictCollinearity := false, collinearityTolerance := 10 }

end

noncomputable section

/-- Concrete fixture: a projector that throws on longitude 2 and succeeds
elsewhere (easting = lng + 1, northing = 1). -/
def exProj : Projector := fun _ lng =>
  if lng = 2 then ProjOutcome.thrown else ProjOutcome.ok (lng + 1) 1

end

noncomputable section

/-- Concrete fixture: point at (0°, 180°). -/
def cxB : Pt := { id := "cb", lat := some 0, lng := some 180 }

/-- Concrete fixture: point at (60°, 0°). -/
def cxC : Pt := { id := "cc", lat := some 60, lng := some 0 }

end

/-! ### Arithmetic helper lemmas -/

theorem truncR_of_nonneg {q : ℝ} (h : 0 ≤ q) : truncR q = (⌊q⌋ : ℤ) := by
  simp [truncR, h]

/-- Evaluation of the JS remainder for a nonnegative dividend and positive
divisor, given the integer quotient. -/
theorem jsRem_eval (a b : ℝ) (k : ℤ) (hb : 0 < b) (hk : 0 ≤ k)
    (h1 : b * k ≤ a) (h2 : a < b * (k + 1)) : jsRem a b = a - b * k := by
  have ha : 0 ≤ a := le_trans (by positivity) h1
  have hq : 0 ≤ a / b := div_nonneg ha hb.le
  have hfl : ⌊a / b⌋ = k := by
    rw [Int.floor_eq_iff]
    constructor
    · rw [le_div_iff₀ hb]; linarith [h1]
    · rw [div_lt_iff₀ hb]
      linarith [h2]
  rw [jsRem, truncR_of_nonneg hq, hfl]

theorem collinearitySub_of_le {d : ℝ} (h : d ≤ 180) : collinearitySub d = d := by
  have hc : ⌈(d - 180) / 360⌉ ≤ 0 := by
    rw [show (0 : ℤ) = ((0 : ℤ)) from rfl, Int.ceil_le]
    push_cast
    apply div_nonpos_of_nonpos_of_nonneg <;> linarith
  rw [collinearitySub, max_eq_left hc]
  push_cast
  ring

theorem collinearityAdd_of_ge {d : ℝ} (h : -180 ≤ d) : collinearityAdd d = d := by
  have hc : ⌈(-180 - d) / 360⌉ ≤ 0 := by
    rw [Int.ceil_le]
    push_cast
    apply div_nonpos_of_nonpos_of_nonneg <;> linarith
  rw [collinearityAdd, max_eq_left hc]
  push_cast
  ring

/-- The two collinearity loops leave a value already in `[-180, 180]`
unchanged. -/
theorem norm180_eq_self {d : ℝ} (h1 : -180 ≤ d) (h2 : d ≤ 180) : norm180 d = d := by
  rw [norm180, collinearitySub_of_le h2, collinearityAdd_of_ge h1]

theorem collinearitySub_le (d : ℝ) : collinearitySub d ≤ 180 := by
  by_cases h : d ≤ 180
  · rw [collinearitySub_of_le h]; exact h
  · push_neg at h
    have hk : ((d - 180) / 360 : ℝ) ≤ (⌈(d - 180) / 360⌉ : ℤ) := Int.le_ceil _
    have hkpos : (0:ℤ) ≤ ⌈(d - 180) / 360⌉ :=
      Int.ceil_nonneg (div_nonneg (by linarith) (by norm_num))
    rw [collinearitySub, max_eq_right hkpos]
    nlinarith [hk]

theorem collinearityAdd_bounds (x : ℝ) (hx : x ≤ 180) :
    -180 ≤ collinearityAdd x ∧ collinearityAdd x ≤ 180 := by
  by_cases h : -180 ≤ x
  · rw [collinearityAdd_of_ge h]; exact ⟨h, hx⟩
  · push_neg at h
    have hk : ((-180 - x) / 360 : ℝ) ≤ (⌈(-180 - x) / 360⌉ : ℤ) := Int.le_ceil _
    have hk2 : ((⌈(-180 - x) / 360⌉ : ℤ) : ℝ) < (-180 - x) / 360 + 1 := Int.ceil_lt_add_one _
    have hkpos : (0:ℤ) ≤ ⌈(-180 - x) / 360⌉ :=
      Int.ceil_nonneg (div_nonneg (by linarith) (by norm_num))
    rw [collinearityAdd, max_eq_right hkpos]
    constructor
    · nlinarith [hk]
    · nlinarith [hk2]

/-- Sanity check on the closed form of the two loops: the result always
lies in the loops' joint postcondition range `[-180, 180]`. -/
theorem norm180_bounds (d : ℝ) : -180 ≤ norm180 d ∧ norm180 d ≤ 180 :=
  collinearityAdd_bounds _ (collinearitySub_le d)

/-- Sanity check on the closed form of the two loops: the result differs
from the input by a whole number of 360-degree turns, as a sequence of
`±360` loop steps must. -/
theorem norm180_shift (d : ℝ) : ∃ k : ℤ, norm180 d = d + 360 * k := by
  refine ⟨(max 0 ⌈(-180 - collinearitySub d) / 360⌉ : ℤ) - (max 0 ⌈(d - 180) / 360⌉ : ℤ), ?_⟩
  simp only [norm180, collinearityAdd, collinearitySub]
  push_cast
  ring

theorem atan2_zero_of_nonneg {x : ℝ} (hx : 0 ≤ x) : atan2 0 x = 0 := by
  have h : (⟨x, 0⟩ : ℂ) = (x : ℂ) := by
    apply Complex.ext <;> simp
  rw [atan2, h]
  exact Complex.arg_ofReal_of_nonneg hx

theorem atan2_pos_imag {y : ℝ} (hy : 0 < y) (x : ℝ) (hx : x = 0) : atan2 y x = π / 2 := by
  subst hx
  exact Complex.arg_eq_pi_div_two_iff.mpr ⟨rfl, hy⟩

theorem atan2_neg_imag {y : ℝ} (hy : y < 0) (x : ℝ) (hx : x = 0) : atan2 y x = -(π / 2) := by
  subst hx
  exact Complex.arg_eq_neg_pi_div_two_iff.mpr ⟨rfl, hy⟩

/-- The JS `atan2` recovers the angle of a point on the unit circle. -/
theorem atan2_cos_sin {θ : ℝ} (h1 : -π < θ) (h2 : θ ≤ π) :
    atan2 (Real.sin θ) (Real.cos θ) = θ := by
  have h : (⟨Real.cos θ, Real.sin θ⟩ : ℂ) = Complex.cos θ + Complex.sin θ * Complex.I := by
    apply Complex.ext <;>
      simp [Complex.cos_ofReal_re, Complex.sin_ofReal_re]
  rw [atan2, h]
  exact Complex.arg_cos_add_sin_mul_I ⟨h1, h2⟩

theorem atan2_nonneg {y : ℝ} (hy : 0 ≤ y) (x : ℝ) : 0 ≤ atan2 y x := by
  rw [atan2]
  exact Complex.arg_nonneg_iff.mpr hy

/-! ### Haversine distance lemmas -/

/-- Reduction of `calculateDistance` on finite inputs whose haversine sum
is a known value `A` already in `[0,1]` (so the clamp is the identity). -/
theorem dist_of_haversine (lat1 lon1 lat2 lon2 A : ℝ)
    (hA : Real.sin ((lat2 - lat1) * π / 180 / 2) * Real.sin ((lat2 - lat1) * π / 180 / 2) +
      Real.cos (lat1 * π / 180) * Real.cos (lat2 * π / 180) *
        Real.sin ((lon2 - lon1) * π / 180 / 2) * Real.sin ((lon2 - lon1) * π / 180 / 2) = A)
    (h0 : 0 ≤ A) (h1 : A ≤ 1) :
    calculateDistance (some lat1) (some lon1) (some lat2) (some lon2)
      = R * (2 * atan2 (Real.sqrt A) (Real.sqrt (1 - A))) := by
  simp only [calculateDistance]
  rw [hA, min_eq_right h1, max_eq_right h0]

theorem calculateDistance_self (a b : ℝ) :
    calculateDistance (some a) (some b) (some a) (some b) = 0 := by
  rw [dist_of_haversine a b a b 0 (by simp) le_rfl zero_le_one]
  rw [Real.sqrt_zero, sub_zero, Real.sqrt_one, atan2_zero_of_nonneg zero_le_one]
  ring

theorem dist_eq_of_haversine_one (lat1 lon1 lat2 lon2 : ℝ)
    (hA : Real.sin ((lat2 - lat1) * π / 180 / 2) * Real.sin ((lat2 - lat1) * π / 180 / 2) +
      Real.cos (lat1 * π / 180) * Real.cos (lat2 * π / 180) *
        Real.sin ((lon2 - lon1) * π / 180 / 2) * Real.sin ((lon2 - lon1) * π / 180 / 2) = 1) :
    calculateDistance (some lat1) (some lon1) (some lat2) (some lon2) = R * π := by
  rw [dist_of_haversine lat1 lon1 lat2 lon2 1 hA zero_le_one le_rfl]
  rw [Real.sqrt_one, sub_self, Real.sqrt_zero, atan2_pos_imag one_pos 0 rfl]
  ring

theorem dist_eq_of_haversine_quarter (lat1 lon1 lat2 lon2 : ℝ)
    (hA : Real.sin ((lat2 - lat1) * π / 180 / 2) * Real.sin ((lat2 - lat1) * π / 180 / 2) +
      Real.cos (lat1 * π / 180) * Real.cos (lat2 * π / 180) *
        Real.sin ((lon2 - lon1) * π / 180 / 2) * Real.sin ((lon2 - lon1) * π / 180 / 2) = 1/4) :
    calculateDistance (some lat1) (some lon1) (some lat2) (some lon2) = R * (π / 3) := by
  rw [dist_of_haversine lat1 lon1 lat2 lon2 (1/4) hA (by norm_num) (by norm_num)]
  have hq : Real.sqrt (1/4 : ℝ) = 1/2 := by
    rw [show (1/4 : ℝ) = (1/2)^2 by norm_num, Real.sqrt_sq (by norm_num)]
  have h34 : Real.sqrt (1 - 1/4 : ℝ) = Real.sqrt 3 / 2 := by
    rw [show (1 - 1/4 : ℝ) = 3/4 by norm_num,
      Real.sqrt_div (by norm_num : (0:ℝ) ≤ 3) 4,
      show Real.sqrt 4 = 2 by rw [show (4:ℝ) = 2^2 by norm_num, Real.sqrt_sq (by norm_num)]]
  have hatan : atan2 (1/2) (Real.sqrt 3 / 2) = π / 6 := by
    have := atan2_cos_sin (θ := π / 6)
      (by nlinarith [Real.pi_pos]) (by nlinarith [Real.pi_pos])
    rwa [Real.sin_pi_div_six, Real.cos_pi_div_six] at this
  rw [hq, h34, hatan]
  ring

/-- Symmetry of the embedded haversine distance in its two endpoints. -/
theorem calculateDistance_symm (lat1 lon1 lat2 lon2 : JNum) :
    calculateDistance lat1 lon1 lat2 lon2 = calculateDistance lat2 lon2 lat1 lon1 := by
  rcases lat1 with _ | a <;> rcases lon1 with _ | b <;>
    rcases lat2 with _ | c <;> rcases lon2 with _ | d <;>
      simp only [calculateDistance]
  have h1 : (a - c) * π / 180 / 2 = -((c - a) * π / 180 / 2) := by ring
  have h2 : (b - d) * π / 180 / 2 = -((d - b) * π / 180 / 2) := by ring
  rw [h1, h2]
  simp only [Real.sin_neg]
  ring_nf

/-- Nonnegativity of the embedded haversine distance. -/
theorem calculateDistance_nonneg (lat1 lon1 lat2 lon2 : JNum) :
    0 ≤ calculateDistance lat1 lon1 lat2 lon2 := by
  rcases lat1 with _ | a <;> rcases lon1 with _ | b <;>
    rcases lat2 with _ | c <;> rcases lon2 with _ | d <;>
      simp only [calculateDistance, le_refl]
  have hR : (0:ℝ) ≤ R := by rw [R]; norm_num
  have hc : 0 ≤ atan2 (Real.sqrt (max 0 (min 1 (Real.sin ((c - a) * π / 180 / 2) *
      Real.sin ((c - a) * π / 180 / 2) + Real.cos (a * π / 180) * Real.cos (c * π / 180) *
      Real.sin ((d - b) * π / 180 / 2) * Real.sin ((d - b) * π / 180 / 2)))))
      (Real.sqrt (1 - max 0 (min 1 (Real.sin ((c - a) * π / 180 / 2) *
      Real.sin ((c - a) * π / 180 / 2) + Real.cos (a * π / 180) * Real.cos (c * π / 180) *
      Real.sin ((d - b) * π / 180 / 2) * Real.sin ((d - b) * π / 180 / 2))))) :=
    atan2_nonneg (Real.sqrt_nonneg _) _
  positivity

/-! ### Bearing evaluation lemmas -/

theorem jsRem_360_360 : jsRem 360 360 = 0 := by
  rw [jsRem_eval 360 360 1 (by norm_num) (by norm_num) (by push_cast; norm_num)
    (by push_cast; norm_num)]
  push_cast
  norm_num

theorem jsRem_450_360 : jsRem 450 360 = 90 := by
  rw [jsRem_eval 450 360 1 (by norm_num) (by norm_num) (by push_cast; norm_num)
    (by push_cast; norm_num)]
  push_cast
  norm_num

theorem jsRem_405_360 : jsRem 405 360 = 45 := by
  rw [jsRem_eval 405 360 1 (by norm_num) (by norm_num) (by push_cast; norm_num)
    (by push_cast; norm_num)]
  push_cast
  norm_num

theorem jsRem_270_360 : jsRem 270 360 = 270 := by
  rw [jsRem_eval 270 360 0 (by norm_num) (by norm_num) (by push_cast; norm_num)
    (by push_cast; norm_num)]
  push_cast
  norm_num

/-- Bearing of a due-north segment (same longitude, latitude increasing by
less than 180 degrees) is exactly 0. -/
theorem bearing_due_north (lat1 lat2 lng : ℝ) (h1 : 0 < lat2 - lat1) (h2 : lat2 - lat1 < 180) :
    calculateBearing (some lat1) (some lng) (some lat2) (some lng) = 0 := by
  simp only [calculateBearing]
  rw [show (lng - lng) * π / 180 = 0 by ring, Real.sin_zero, Real.cos_zero, zero_mul, mul_one]
  have hx : Real.cos (lat1 * π / 180) * Real.sin (lat2 * π / 180) -
      Real.sin (lat1 * π / 180) * Real.cos (lat2 * π / 180)
      = Real.sin (lat2 * π / 180 - lat1 * π / 180) := by
    rw [Real.sin_sub]; ring
  rw [hx]
  have hxpos : 0 < Real.sin (lat2 * π / 180 - lat1 * π / 180) := by
    apply Real.sin_pos_of_pos_of_lt_pi
    · have := Real.pi_pos; nlinarith
    · have hp := Real.pi_pos
      have : lat2 * π / 180 - lat1 * π / 180 = (lat2 - lat1) / 180 * π := by ring
      rw [this]
      nlinarith
  rw [atan2_zero_of_nonneg hxpos.le, show (0:ℝ) * 180 / π + 360 = 360 by ring, jsRem_360_360]

/-- Bearing of a due-east segment on the equator (longitude increasing by
less than 180 degrees) is exactly 90. -/
theorem bearing_due_east (lng1 lng2 : ℝ) (h1 : 0 < lng2 - lng1) (h2 : lng2 - lng1 < 180) :
    calculateBearing (some 0) (some lng1) (some 0) (some lng2) = 90 := by
  simp only [calculateBearing]
  rw [show (0:ℝ) * π / 180 = 0 by ring, Real.sin_zero, Real.cos_zero, mul_one]
  have hypos : 0 < Real.sin ((lng2 - lng1) * π / 180) := by
    apply Real.sin_pos_of_pos_of_lt_pi
    · have := Real.pi_pos; nlinarith
    · have hp := Real.pi_pos
      have : (lng2 - lng1) * π / 180 = (lng2 - lng1) / 180 * π := by ring
      rw [this]; nlinarith
  rw [atan2_pos_imag hypos _ (by ring)]
  have hp := Real.pi_ne_zero
  rw [show π / 2 * 180 / π + 360 = 90 * (π / π) + 360 by ring, div_self hp,
    show (90:ℝ) * 1 + 360 = 450 by ring, jsRem_450_360]

/-- Bearing of a due-west segment on the equator (longitude decreasing by
less than 180 degrees) is exactly 270. -/
theorem bearing_due_west (lng1 lng2 : ℝ) (h1 : 0 < lng1 - lng2) (h2 : lng1 - lng2 < 180) :
    calculateBearing (some 0) (some lng1) (some 0) (some lng2) = 270 := by
  simp only [calculateBearing]
  rw [show (0:ℝ) * π / 180 = 0 by ring, Real.sin_zero, Real.cos_zero, mul_one]
  have hyneg : Real.sin ((lng2 - lng1) * π / 180) < 0 := by
    apply Real.sin_neg_of_neg_of_neg_pi_lt
    · have := Real.pi_pos; nlinarith
    · have hp := Real.pi_pos
      have : (lng2 - lng1) * π / 180 = -((lng1 - lng2) / 180 * π) := by ring
      rw [this]; nlinarith
  rw [atan2_neg_imag hyneg _ (by ring)]
  have hp := Real.pi_ne_zero
  rw [show -(π / 2) * 180 / π + 360 = -90 * (π / π) + 360 by ring, div_self hp,
    show (-90:ℝ) * 1 + 360 = 270 by ring, jsRem_270_360]

theorem bearing_00_4590 : calculateBearing (some 0) (some 0) (some 45) (some 90) = 45 := by
  simp only [calculateBearing]
  rw [show ((90:ℝ) - 0) * π / 180 = π / 2 by ring, show (45:ℝ) * π / 180 = π / 4 by ring,
    show (0:ℝ) * π / 180 = 0 by ring, Real.sin_pi_div_two, Real.sin_zero, Real.cos_zero]
  rw [show (1:ℝ) * Real.cos (π / 4) = Real.sin (π / 4) by
      rw [Real.cos_pi_div_four, Real.sin_pi_div_four]; ring,
    show (1:ℝ) * Real.sin (π / 4) - 0 * Real.cos (π / 4) * Real.cos (π / 2) = Real.cos (π / 4) by
      rw [Real.cos_pi_div_four, Real.sin_pi_div_four]; ring]
  rw [atan2_cos_sin (by have := Real.pi_pos; nlinarith) (by have := Real.pi_pos; nlinarith)]
  have hp := Real.pi_ne_zero
  rw [show π / 4 * 180 / π + 360 = 45 * (π / π) + 360 by ring, div_self hp,
    show (45:ℝ) * 1 + 360 = 405 by ring, jsRem_405_360]

theorem bearing_4590_00 : calculateBearing (some 45) (some 90) (some 0) (some 0) = 270 := by
  simp only [calculateBearing]
  rw [show ((0:ℝ) - 90) * π / 180 = -(π / 2) by ring, show (0:ℝ) * π / 180 = 0 by ring,
    Real.sin_zero, Real.cos_zero, Real.sin_neg, Real.sin_pi_div_two, Real.cos_neg,
    Real.cos_pi_div_two]
  rw [atan2_neg_imag (by norm_num) _ (by ring)]
  have hp := Real.pi_ne_zero
  rw [show -(π / 2) * 180 / π + 360 = -90 * (π / π) + 360 by ring, div_self hp,
    show (-90:ℝ) * 1 + 360 = 270 by ring, jsRem_270_360]

/-- C9 counterexample: for P = (0°, 0°) and Q = (45°, 90°) the code's
bearings are `bearing(P,Q) = 45°` and `bearing(Q,P) = 270°`, which differ
by 225°, not by 180° modulo 360. -/
theorem c9_counterexample :
    ¬ specDiffBy180 (calculateBearing (some 0) (some 0) (some 45) (some 90))
      (calculateBearing (some 45) (some 90) (some 0) (some 0)) := by
  rw [bearing_00_4590, bearing_4590_00]
  rintro ⟨k, hk⟩
  have hk2 : (360:ℝ) * (k : ℝ) = -405 := by linarith
  have hk3 : (360 * k : ℤ) = -405 := by exact_mod_cast hk2
  omega

/-- C9 (amended): for two distinct points on the equator whose longitude
difference is strictly between 0 and 180 degrees, `calculateBearing`
yields 90° one way and 270° the other, so the two bearings differ by
exactly 180 degrees modulo 360. -/
theorem c9_amended_equator (lng1 lng2 : ℝ) (h1 : 0 < lng2 - lng1) (h2 : lng2 - lng1 < 180) :
    specDiffBy180 (calculateBearing (some 0) (some lng1) (some 0) (some lng2))
      (calculateBearing (some 0) (some lng2) (some 0) (some lng1)) := by
  rw [bearing_due_east lng1 lng2 h1 h2, bearing_due_west lng2 lng1 h1 h2]
  exact ⟨-1, by push_cast; ring⟩

/-- Witness for the amended C9 at the concrete pair (0°,0°), (0°,90°). -/
theorem c9_amended_equator_witness :
    (0:ℝ) < 90 - 0 ∧ (90:ℝ) - 0 < 180 ∧
    specDiffBy180 (calculateBearing (some 0) (some 0) (some 0) (some 90))
      (calculateBearing (some 0) (some 90) (some 0) (some 0)) :=
  ⟨by norm_num, by norm_num, c9_amended_equator 0 90 (by norm_num) (by norm_num)⟩

/-- C10: `calculateDistance` is symmetric — swapping the two coordinate
pairs gives the same value — and its result is always nonnegative
(including the NaN-guard branches, which return 0). -/
theorem c10_distance_symm_nonneg (lat1 lon1 lat2 lon2 : JNum) :
    calculateDistance lat1 lon1 lat2 lon2 = calculateDistance lat2 lon2 lat1 lon1 ∧
    0 ≤ calculateDistance lat1 lon1 lat2 lon2 :=
  ⟨calculateDistance_symm lat1 lon1 lat2 lon2, calculateDistance_nonneg lat1 lon1 lat2 lon2⟩

/-- C3 (code-bug evidence): on the degenerate zero-length baseline with
start = end = (0°, 0°) and a probe point (1°, 1°), `snapToBaseline`
divides 0 by 0 and returns NaN in both output fields instead of the
start coordinates — the claimed neutral value `(0, 0)` is not returned. -/
theorem c3_snap_zero_baseline_nan :
    snapToBaseline (some 0) (some 0) (some 0) (some 0) (some 1) (some 1) = (none, none) ∧
    ((none, none) : JNum × JNum) ≠ (some 0, some 0) := by
  constructor
  · simp [snapToBaseline]
  · simp

/-! ### C2: range filtering -/

theorem dist_0_0_300_0 : calculateDistance (some 0) (some 0) (some 300) (some 0) = R * (π / 3) := by
  apply dist_eq_of_haversine_quarter
  rw [show ((300:ℝ) - 0) * π / 180 / 2 = π - π / 6 by ring,
    show ((0:ℝ) - 0) * π / 180 / 2 = 0 by ring, Real.sin_pi_sub, Real.sin_pi_div_six,
    Real.sin_zero]
  ring

/-- C2 counterexample: the point B = (300°, 0°) has an out-of-range
latitude yet is not excluded: the perimeter of [A, B] with A = (0°, 0°)
is R·π/3 ≠ 0, while the metric over only the in-range points (just A) is
0.  The source filter checks `isNaN` only, never the coordinate range. -/
theorem c2_counterexample :
    calculatePerimeter [{ id := "A", lat := some 0, lng := some 0 },
        { id := "B", lat := some 300, lng := some 0 }] ≠
      calculatePerimeter [{ id := "A", lat := some 0, lng := some 0 }] ∧
    ¬ specInRange { id := "B", lat := some 300, lng := some 0 } ∧
    specInRange { id := "A", lat := some 0, lng := some 0 } := by
  refine ⟨?_, ?_, ?_⟩
  · have h2 : calculatePerimeter [{ id := "A", lat := some 0, lng := some 0 },
        { id := "B", lat := some 300, lng := some 0 }] = R * (π / 3) := by
      simp [calculatePerimeter, validPoints, dist_0_0_300_0]
    have h1 : calculatePerimeter [({ id := "A", lat := some 0, lng := some 0 } : Pt)] = 0 := by
      simp [calculatePerimeter, validPoints]
    rw [h1, h2, R]
    positivity
  · simp [specInRange]
    norm_num
  · simp [specInRange]

/-- C2 (amended): the metric functions exclude exactly the points with a
NaN coordinate — the result equals the metric computed over only the
non-NaN points — and finite out-of-range coordinates are kept as-is. -/
theorem c2_amended_nan_only_filter (proj4? : Option Projector) (points : List Pt) :
    calculateArea proj4? (validPoints points) = calculateArea proj4? points ∧
    calculatePerimeter (validPoints points) = calculatePerimeter points := by
  have hidem : validPoints (validPoints points) = validPoints points := by
    simp [validPoints, List.filter_filter]
  have hle : (validPoints points).length ≤ points.length :=
    List.length_filter_le _ _
  constructor
  · simp only [calculateArea, hidem]
    split_ifs <;> first | rfl | omega
  · simp only [calculatePerimeter, hidem]

/-! ### C7: weighted GPS aggregation -/

/-- The code's weight `1 / (acc² || 1)` is exactly the claim's weight
`1/acc²` with accuracy 0 or missing giving weight 1. -/
theorem jsWeight_eq_specWeight (acc : JNum) : jsWeight acc = specWeight acc := by
  cases acc with
  | none => rfl
  | some a =>
    by_cases h : a = 0
    · subst h; simp [jsWeight, specWeight]
    · simp [jsWeight, specWeight, h, mul_self_eq_zero, sq]

theorem specWeight_pos (acc : JNum) : 0 < specWeight acc := by
  cases acc with
  | none => norm_num [specWeight]
  | some a =>
    by_cases h : a = 0
    · simp [specWeight, h]
    · simp only [specWeight, if_neg h]
      positivity

theorem gpsSums_aux (samples : List RawSample) (a b c d : ℝ) :
    samples.foldl
      (fun acc s =>
        match acc with
        | (latSum, lngSum, altSum, weightSum) =>
          let w := jsWeight s.accuracy
          (latSum + s.lat * w, lngSum + s.lng * w, altSum + s.altitude.getD 0 * w, weightSum + w))
      (a, b, c, d) =
    (a + (samples.map (fun s => s.lat * jsWeight s.accuracy)).sum,
      b + (samples.map (fun s => s.lng * jsWeight s.accuracy)).sum,
      c + (samples.map (fun s => s.altitude.getD 0 * jsWeight s.accuracy)).sum,
      d + (samples.map (fun s => jsWeight s.accuracy)).sum) := by
  induction samples generalizing a b c d with
  | nil => simp
  | cons s t ih =>
    simp only [List.foldl_cons, List.map_cons, List.sum_cons, ih]
    refine Prod.ext (by ring) (Prod.ext (by ring) (Prod.ext (by ring) (by ring)))

/-- The forEach loop computes the four weighted sums. -/
theorem gpsSums_eq (samples : List RawSample) :
    gpsSums samples =
      ((samples.map (fun s => s.lat * jsWeight s.accuracy)).sum,
        (samples.map (fun s => s.lng * jsWeight s.accuracy)).sum,
        (samples.map (fun s => s.altitude.getD 0 * jsWeight s.accuracy)).sum,
        (samples.map (fun s => jsWeight s.accuracy)).sum) := by
  have h := gpsSums_aux samples 0 0 0 0
  simpa [gpsSums] using h

theorem accSum_aux (samples : List RawSample) (x : ℝ)
    (h : ∀ s ∈ samples, s.accuracy.isSome) :
    samples.foldl (fun acc s => jadd acc s.accuracy) (some x) =
      some (x + (samples.map (fun s => s.accuracy.getD 0)).sum) := by
  induction samples generalizing x with
  | nil => simp
  | cons s t ih =>
    obtain ⟨a, ha⟩ := Option.isSome_iff_exists.mp (h s (List.mem_cons_self s t))
    have ht : ∀ u ∈ t, u.accuracy.isSome := fun u hu => h u (List.mem_cons_of_mem s hu)
    rw [List.foldl_cons, ha, show jadd (some x) (some a) = some (x + a) from rfl,
      ih (x + a) ht, List.map_cons, List.sum_cons, ha]
    simp only [Option.getD_some, Option.some.injEq]
    ring

/-- When every sample carries an accuracy, the reduce loop computes their
plain sum. -/
theorem accSum_eq (samples : List RawSample) (h : ∀ s ∈ samples, s.accuracy.isSome) :
    accSum samples = some ((samples.map (fun s => s.accuracy.getD 0)).sum) := by
  have := accSum_aux samples 0 h
  simpa [accSum] using this

/-- C7: aggregating a non-empty sample window yields the accuracy-weighted
means for latitude, longitude and altitude with weight `1/accuracy²` (an
accuracy of 0 or a missing accuracy giving weight 1), the weight sum is
strictly positive (no division by zero), and when every sample reports an
accuracy the reported accuracy is the unweighted arithmetic mean. -/
theorem c7_weighted_aggregation (samples : List RawSample) (h : samples ≠ []) :
    ∃ r, finishGPSCollection samples = some r ∧
      r.lat = (samples.map (fun s => s.lat * specWeight s.accuracy)).sum /
        (samples.map (fun s => specWeight s.accuracy)).sum ∧
      r.lng = (samples.map (fun s => s.lng * specWeight s.accuracy)).sum /
        (samples.map (fun s => specWeight s.accuracy)).sum ∧
      r.altitude = (samples.map (fun s => s.altitude.getD 0 * specWeight s.accuracy)).sum /
        (samples.map (fun s => specWeight s.accuracy)).sum ∧
      0 < (samples.map (fun s => specWeight s.accuracy)).sum ∧
      ((∀ s ∈ samples, s.accuracy.isSome) →
        r.accuracy = some ((samples.map (fun s => s.accuracy.getD 0)).sum / samples.length)) := by
  obtain ⟨s0, t, rfl⟩ := List.exists_cons_of_ne_nil h
  have hr : finishGPSCollection (s0 :: t) = some
      { lat := ((s0 :: t).map (fun s => s.lat * jsWeight s.accuracy)).sum /
          ((s0 :: t).map (fun s => jsWeight s.accuracy)).sum,
        lng := ((s0 :: t).map (fun s => s.lng * jsWeight s.accuracy)).sum /
          ((s0 :: t).map (fun s => jsWeight s.accuracy)).sum,
        altitude := ((s0 :: t).map (fun s => s.altitude.getD 0 * jsWeight s.accuracy)).sum /
          ((s0 :: t).map (fun s => jsWeight s.accuracy)).sum,
        accuracy := (accSum (s0 :: t)).map (fun v => v / (s0 :: t).length) } := by
    simp only [finishGPSCollection, gpsSums_eq]
  refine ⟨_, hr, ?_, ?_, ?_, ?_, ?_⟩
  · dsimp only
    simp only [jsWeight_eq_specWeight]
  · dsimp only
    simp only [jsWeight_eq_specWeight]
  · dsimp only
    simp only [jsWeight_eq_specWeight]
  · refine List.sum_pos _ (fun x hx => ?_) (by simp)
    obtain ⟨s, _, rfl⟩ := List.mem_map.mp hx
    exact specWeight_pos s.accuracy
  · intro hacc
    dsimp only
    rw [accSum_eq _ hacc]
    rfl

/-- Witness for C7 at a concrete one-sample window. -/
theorem c7_weighted_aggregation_witness :
    ([⟨10, 20, some 2, some 100⟩] : List RawSample) ≠ [] ∧
    (∃ r, finishGPSCollection [(⟨10, 20, some 2, some 100⟩ : RawSample)] = some r ∧
      r.lat = (([(⟨10, 20, some 2, some 100⟩ : RawSample)]).map
          (fun s => s.lat * specWeight s.accuracy)).sum /
        (([(⟨10, 20, some 2, some 100⟩ : RawSample)]).map (fun s => specWeight s.accuracy)).sum ∧
      r.lng = (([(⟨10, 20, some 2, some 100⟩ : RawSample)]).map
          (fun s => s.lng * specWeight s.accuracy)).sum /
        (([(⟨10, 20, some 2, some 100⟩ : RawSample)]).map (fun s => specWeight s.accuracy)).sum ∧
      r.altitude = (([(⟨10, 20, some 2, some 100⟩ : RawSample)]).map
          (fun s => s.altitude.getD 0 * specWeight s.accuracy)).sum /
        (([(⟨10, 20, some 2, some 100⟩ : RawSample)]).map (fun s => specWeight s.accuracy)).sum ∧
      0 < (([(⟨10, 20, some 2, some 100⟩ : RawSample)]).map (fun s => specWeight s.accuracy)).sum ∧
      ((∀ s ∈ ([(⟨10, 20, some 2, some 100⟩ : RawSample)] : List RawSample), s.accuracy.isSome) →
        r.accuracy = some ((([(⟨10, 20, some 2, some 100⟩ : RawSample)]).map
          (fun s => s.accuracy.getD 0)).sum /
            ([(⟨10, 20, some 2, some 100⟩ : RawSample)] : List RawSample).length))) :=
  ⟨by simp, c7_weighted_aggregation [⟨10, 20, some 2, some 100⟩] (by simp)⟩

/-! ### Staking state-machine lemmas (C1, C5, C6) -/

theorem withLabel_update_lat (point : Pt) (d b : JNum) (l : String) :
    (withLabel { point with distance := d, bearing := b } l).lat = point.lat := by
  unfold withLabel; split <;> rfl

theorem withLabel_update_lng (point : Pt) (d b : JNum) (l : String) :
    (withLabel { point with distance := d, bearing := b } l).lng = point.lng := by
  unfold withLabel; split <;> rfl

theorem withLabel_collinearityError (p : Pt) (l : String) :
    (withLabel p l).collinearityError = p.collinearityError := by
  unfold withLabel; split <;> rfl

theorem snapTransform_collinearityError (staking : StakingState) (prev : Survey) (p : Pt) :
    (snapTransform staking prev p).collinearityError = p.collinearityError := by
  unfold snapTransform
  repeat' split
  all_goals simp [withLabel_collinearityError]

/-- Evaluation of the collinearity error when the achieved bearing is
known and the raw difference already lies in `[-180, 180]`. -/
theorem collinearity_error_eval (sLat sLng tb cLat cLng b : ℝ)
    (hb : calculateBearing (some sLat) (some sLng) (some cLat) (some cLng) = b)
    (h1 : -180 ≤ b - tb) (h2 : b - tb ≤ 180) :
    (calculateCollinearity (some sLat) (some sLng) (some tb) (some cLat) (some cLng)).1
      = |b - tb| := by
  simp only [calculateCollinearity]
  rw [hb, norm180_eq_self h1 h2]

/-- C1: in strict collinearity mode, when the computed error of the new
point exceeds the session tolerance in the Tracking state, the call
returns the previous survey and the previous staking session entirely
unchanged: the point is not appended and no field is mutated. -/
theorem c1_strict_rejection_unchanged (staking : StakingState) (prev : Survey) (point : Pt)
    (now : ℤ) (last : Pt) (cb : ℝ)
    (hactive : staking.isActive = true)
    (hlast : prev.points.getLast? = some last)
    (hlen : prev.points.length ≠ 1)
    (hcb : staking.currentBearing = some cb)
    (hstrict : staking.strictCollinearity = true)
    (herr : staking.collinearityTolerance <
      (calculateCollinearity last.lat last.lng (some cb) point.lat point.lng).1) :
    addPointToSurvey staking prev point now = (prev, staking) := by
  simp only [addPointToSurvey, hlast, hactive, hcb, if_true,
    withLabel_update_lat, withLabel_update_lng]
  rw [if_neg (by simp [hlen]), if_pos ⟨hstrict, herr⟩]

theorem exErr90 : (calculateCollinearity exP2.lat exP2.lng (some 0) exP3.lat exP3.lng).1 = 90 := by
  have hb : calculateBearing (some 0) (some 1) (some 0) (some 2) = 90 :=
    bearing_due_east 1 2 (by norm_num) (by norm_num)
  have h := collinearity_error_eval 0 1 0 0 2 90 hb (by norm_num) (by norm_num)
  simp only [exP2, exP3]
  rw [h]
  norm_num

/-- Witness for C1: with a concrete strict session (running bearing 0°,
tolerance 1°) and a new point due east of the last one (error 90°), the
call leaves survey and session unchanged. -/
theorem c1_strict_rejection_unchanged_witness :
    exStrictStaking.isActive = true ∧
    exSurvey2.points.getLast? = some exP2 ∧
    exSurvey2.points.length ≠ 1 ∧
    exStrictStaking.currentBearing = some 0 ∧
    exStrictStaking.strictCollinearity = true ∧
    exStrictStaking.collinearityTolerance <
      (calculateCollinearity exP2.lat exP2.lng (some 0) exP3.lat exP3.lng).1 ∧
    addPointToSurvey exStrictStaking exSurvey2 exP3 0 = (exSurvey2, exStrictStaking) := by
  have herr : exStrictStaking.collinearityTolerance <
      (calculateCollinearity exP2.lat exP2.lng (some 0) exP3.lat exP3.lng).1 := by
    rw [exErr90]; norm_num [exStrictStaking]
  refine ⟨rfl, rfl, by simp [exSurvey2], rfl, rfl, herr, ?_⟩
  exact c1_strict_rejection_unchanged exStrictStaking exSurvey2 exP3 0 exP2 0
    rfl rfl (by simp [exSurvey2]) rfl rfl herr

/-- The SingleAnchor step of `addPointToSurvey`: with exactly one previous
point and staking active, the updated session's `currentBearing` is the
computed bearing run through JS `|| null` — i.e. `none` when the bearing
is exactly 0, `some b` otherwise. -/
theorem addPoint_singleAnchor (staking : StakingState) (prev : Survey) (point : Pt) (now : ℤ)
    (p1 : Pt) (hactive : staking.isActive = true) (hpts : prev.points = [p1]) :
    (addPointToSurvey staking prev point now).2 =
      { staking with currentBearing :=
        (if calculateBearing p1.lat p1.lng point.lat point.lng = 0 then none
          else some (calculateBearing p1.lat p1.lng point.lat point.lng)) } := by
  simp only [addPointToSurvey, hpts, hactive, List.getLast?_singleton, List.length_singleton,
    if_true]
  simp

/-- C5 counterexample: with one anchor point at (0°, 0°) and a second
staked point due north at (1°, 0°), the bearing 1→2 is exactly 0, and the
JS expression `point.bearing || null` maps it to null: the session's
`currentBearing` does not become the computed bearing. -/
theorem c5_counterexample :
    ¬ ((addPointToSurvey exStakingNB exSurvey1 exPN 0).2.currentBearing =
        some (calculateBearing exP1.lat exP1.lng exPN.lat exPN.lng)) := by
  have hb : calculateBearing exP1.lat exP1.lng exPN.lat exPN.lng = 0 := by
    simp only [exP1, exPN]
    exact bearing_due_north 0 1 0 (by norm_num) (by norm_num)
  rw [addPoint_singleAnchor exStakingNB exSurvey1 exPN 0 exP1 rfl rfl, hb]
  simp

/-- C5 (amended): when the second staked point is added (exactly one
previous point, staking active), the session's `currentBearing` becomes
the bearing from point 1 to point 2 whenever that bearing is nonzero; a
bearing of exactly 0 (due north) is mapped to null by the JS falsy check
`point.bearing || null`. -/
theorem c5_amended_bearing_or_null (staking : StakingState) (prev : Survey) (point : Pt)
    (now : ℤ) (p1 : Pt) (hactive : staking.isActive = true) (hpts : prev.points = [p1]) :
    (addPointToSurvey staking prev point now).2.currentBearing =
      (if calculateBearing p1.lat p1.lng point.lat point.lng = 0 then none
        else some (calculateBearing p1.lat p1.lng point.lat point.lng)) := by
  rw [addPoint_singleAnchor staking prev point now p1 hactive hpts]

/-- Witness for the amended C5 at a concrete due-east second point
(bearing 90°, which is kept). -/
theorem c5_amended_bearing_or_null_witness :
    exStakingNB.isActive = true ∧ exSurvey1.points = [exP1] ∧
    (addPointToSurvey exStakingNB exSurvey1 exP2 0).2.currentBearing =
      (if calculateBearing exP1.lat exP1.lng exP2.lat exP2.lng = 0 then none
        else some (calculateBearing exP1.lat exP1.lng exP2.lat exP2.lng)) :=
  ⟨rfl, rfl, c5_amended_bearing_or_null exStakingNB exSurvey1 exP2 0 exP1 rfl rfl⟩

/-- The Tracking step of `addPointToSurvey` when the point is accepted:
the appended point's recorded `collinearityError` is the error computed
by `calculateCollinearity` against the session's `currentBearing`; all
previously stored errors are untouched.  (`targetBearing` does not occur
in this formula: it is never read by `addPointToSurvey`.) -/
theorem addPoint_tracking_error (staking : StakingState) (prev : Survey) (point : Pt)
    (now : ℤ) (last : Pt) (cb : ℝ)
    (hactive : staking.isActive = true)
    (hlast : prev.points.getLast? = some last)
    (hlen : prev.points.length ≠ 1)
    (hcb : staking.currentBearing = some cb)
    (hacc : ¬ (staking.strictCollinearity = true ∧ staking.collinearityTolerance <
      (calculateCollinearity last.lat last.lng (some cb) point.lat point.lng).1)) :
    (addPointToSurvey staking prev point now).1.points.map (fun p => p.collinearityError) =
      prev.points.map (fun p => p.collinearityError) ++
        [some ((calculateCollinearity last.lat last.lng (some cb) point.lat point.lng).1)] := by
  simp only [addPointToSurvey, hlast, hactive, hcb, if_true,
    withLabel_update_lat, withLabel_update_lng]
  rw [if_neg (by simp [hlen]), if_neg hacc]
  simp only [appendPoint, List.map_append, List.map_cons, List.map_nil,
    snapTransform_collinearityError]

/-- C6 counterexample: with `targetBearing = 90°` set and the session's
running `currentBearing = 0°`, a new point whose achieved bearing is 90°
gets a recorded collinearity error of 90° (measured against
`currentBearing`), not the 0° the claim's reference bearing
(`targetBearing` when set) would give. -/
theorem c6_counterexample :
    specReferenceBearing exTargetStaking = some 90 ∧
    (addPointToSurvey exTargetStaking exSurvey2 exP3 0).1.points.map
        (fun p => p.collinearityError) ≠
      exSurvey2.points.map (fun p => p.collinearityError) ++
        [some |norm180 (90 - calculateBearing exP2.lat exP2.lng exP3.lat exP3.lng)|] := by
  constructor
  · rfl
  · rw [addPoint_tracking_error exTargetStaking exSurvey2 exP3 0 exP2 0 rfl rfl
      (by simp [exSurvey2]) rfl (by simp [exTargetStaking])]
    rw [exErr90]
    have hb : calculateBearing exP2.lat exP2.lng exP3.lat exP3.lng = 90 := by
      simp only [exP2, exP3]
      exact bearing_due_east 1 2 (by norm_num) (by norm_num)
    rw [hb, show (90:ℝ) - 90 = 0 by ring, norm180_eq_self (by norm_num) (by norm_num)]
    simp

/-- C6 (amended): for every accepted point in the Tracking state, the
recorded collinearity error is the absolute value of the two-loop
normalisation of (achieved bearing − `currentBearing`): the reference is
always the session's running `currentBearing`; the explicit
`targetBearing` is not consulted by `addPointToSurvey`. -/
theorem c6_amended_error_vs_current_bearing (staking : StakingState) (prev : Survey)
    (point : Pt) (now : ℤ) (last : Pt) (cb la ln pa pb : ℝ)
    (hactive : staking.isActive = true)
    (hlast : prev.points.getLast? = some last)
    (hlen : prev.points.length ≠ 1)
    (hcb : staking.currentBearing = some cb)
    (hla : last.lat = some la) (hln : last.lng = some ln)
    (hpa : point.lat = some pa) (hpb : point.lng = some pb)
    (hacc : ¬ (staking.strictCollinearity = true ∧ staking.collinearityTolerance <
      (calculateCollinearity last.lat last.lng (some cb) point.lat point.lng).1)) :
    (addPointToSurvey staking prev point now).1.points.map (fun p => p.collinearityError) =
      prev.points.map (fun p => p.collinearityError) ++
        [some |norm180 (calculateBearing (some la) (some ln) (some pa) (some pb) - cb)|] := by
  rw [addPoint_tracking_error staking prev point now last cb hactive hlast hlen hcb hacc]
  rw [hla, hln, hpa, hpb]
  simp only [calculateCollinearity]

/-- Witness for the amended C6: concrete session with `currentBearing`
0° and `targetBearing` 90°; the recorded error follows `currentBearing`. -/
theorem c6_amended_error_vs_current_bearing_witness :
    exTargetStaking.isActive = true ∧
    exSurvey2.points.getLast? = some exP2 ∧
    exSurvey2.points.length ≠ 1 ∧
    exTargetStaking.currentBearing = some 0 ∧
    exP2.lat = some 0 ∧ exP2.lng = some 1 ∧ exP3.lat = some 0 ∧ exP3.lng = some 2 ∧
    ¬ (exTargetStaking.strictCollinearity = true ∧ exTargetStaking.collinearityTolerance <
      (calculateCollinearity exP2.lat exP2.lng (some 0) exP3.lat exP3.lng).1) ∧
    (addPointToSurvey exTargetStaking exSurvey2 exP3 0).1.points.map
        (fun p => p.collinearityError) =
      exSurvey2.points.map (fun p => p.collinearityError) ++
        [some |norm180 (calculateBearing (some 0) (some 1) (some 0) (some 2) - 0)|] :=
  ⟨rfl, rfl, by simp [exSurvey2], rfl, rfl, rfl, rfl, rfl, by simp [exTargetStaking],
    c6_amended_error_vs_current_bearing exTargetStaking exSurvey2 exP3 0 exP2 0 0 1 0 2
      rfl rfl (by simp [exSurvey2]) rfl rfl rfl rfl rfl (by simp [exTargetStaking])⟩

/-- C4 counterexample: with a projector that fails on the third point,
`latLngToUtm` returns its zeroed result for that point, yet
`calculateArea` does not fall back to the spherical path: the zeroed pair
(0,0) enters the same shoelace sum as the two successfully projected
points, giving area 1/2, while the spherical fallback on the same
(collinear, equatorial) points gives 0. -/
theorem c4_counterexample :
    latLngToUtm (some exProj) exP3.lat exP3.lng =
      { easting := 0, northing := 0, zone := 0, hemi := Hemi.N } ∧
    calculateArea (some exProj) [exP1, exP2, exP3] ≠ calculateArea none [exP1, exP2, exP3] := by
  have hval : validPoints [exP1, exP2, exP3] = [exP1, exP2, exP3] := by
    simp [validPoints, exP1, exP2, exP3]
  constructor
  · simp [latLngToUtm, exProj, exP3]
  · have hUtm : calculateArea (some exProj) [exP1, exP2, exP3] = 1 / 2 := by
      simp only [calculateArea, hval]
      rw [if_neg (by simp), if_neg (by simp)]
      simp only [utmArea, latLngToUtm, exProj, exP1, exP2, exP3, List.map_cons, List.map_nil]
      norm_num
      simp only [shoelaceSum, List.rotate_cons_succ, List.rotate_zero]
      simp only [List.cons_append, List.nil_append, List.zip_cons_cons, List.zip_nil_right,
        List.map_cons, List.map_nil, List.sum_cons, List.sum_nil]
      norm_num
    have hFall : calculateArea none [exP1, exP2, exP3] = 0 := by
      simp only [calculateArea, hval]
      rw [if_neg (by simp), if_neg (by simp)]
      simp only [sphericalArea, fallbackCoord, exP1, exP2, exP3, List.map_cons, List.map_nil]
      rw [calculateDistance_self 0 0]
      simp only [zero_mul, mul_zero]
      simp only [shoelaceSum, List.rotate_cons_succ, List.rotate_zero]
      simp only [List.cons_append, List.nil_append, List.zip_cons_cons, List.zip_nil_right,
        List.map_cons, List.map_nil, List.sum_cons, List.sum_nil]
      rw [show ∀ x1 x2 x3 : ℝ, x1 * 0 - x2 * 0 + (x2 * 0 - x3 * 0 + (x3 * 0 - x1 * 0 + 0)) = 0
        from fun _ _ _ => by ring]
      simp
    rw [hUtm, hFall]
    norm_num

/-- C4 (amended): a single `calculateArea` call uses exactly one
coordinate path for the whole polygon, chosen deterministically by
projector availability — the UTM shoelace when `proj4` is present, the
spherical fallback when it is not.  A per-point projection failure does
not switch the path: its zeroed coordinates stay inside the UTM shoelace
sum (see the counterexample). -/
theorem c4_amended_path_determinism (f : Projector) (points : List Pt)
    (h3 : 3 ≤ points.length) (hv : 3 ≤ (validPoints points).length) :
    calculateArea (some f) points = utmArea (some f) (validPoints points) ∧
    calculateArea none points = sphericalArea (validPoints points) := by
  constructor <;> simp only [calculateArea] <;> rw [if_neg (by omega), if_neg (by omega)]

/-- Witness for the amended C4 at the concrete three-point list and the
partially failing projector. -/
theorem c4_amended_path_determinism_witness :
    3 ≤ ([exP1, exP2, exP3] : List Pt).length ∧
    3 ≤ (validPoints [exP1, exP2, exP3]).length ∧
    (calculateArea (some exProj) [exP1, exP2, exP3] =
        utmArea (some exProj) (validPoints [exP1, exP2, exP3]) ∧
      calculateArea none [exP1, exP2, exP3] = sphericalArea (validPoints [exP1, exP2, exP3])) :=
  ⟨by simp, by simp [validPoints, exP1, exP2, exP3],
    c4_amended_path_determinism exProj [exP1, exP2, exP3] (by simp)
      (by simp [validPoints, exP1, exP2, exP3])⟩

/-! ### C8: shoelace and perimeter invariance lemmas -/

theorem rotate_one_cons {α : Type _} (a : α) (t : List α) : (a :: t).rotate 1 = t ++ [a] := by
  rw [show (1:ℕ) = 0 + 1 from rfl, List.rotate_cons_succ, List.rotate_zero]

theorem zip_rotate_one {α β : Type _} (l : List α) (m : List β) (h : l.length = m.length) :
    (l.rotate 1).zip (m.rotate 1) = (l.zip m).rotate 1 := by
  cases l with
  | nil =>
    cases m with
    | nil => simp
    | cons b s => simp at h
  | cons a t =>
    cases m with
    | nil => simp at h
    | cons b s =>
      have ht : t.length = s.length := by simpa using h
      rw [rotate_one_cons, rotate_one_cons, List.zip_cons_cons, rotate_one_cons,
        List.zip_append ht]
      simp

theorem shoelaceSum_rotate_one (c : List (ℝ × ℝ)) :
    shoelaceSum (c.rotate 1) = shoelaceSum c := by
  unfold shoelaceSum
  rw [zip_rotate_one c (c.rotate 1) (by rw [List.length_rotate]), List.map_rotate]
  exact (List.rotate_perm _ _).sum_eq

theorem shoelaceSum_rotate (k : ℕ) : ∀ c : List (ℝ × ℝ),
    shoelaceSum (c.rotate k) = shoelaceSum c := by
  induction k with
  | zero => intro c; rw [List.rotate_zero]
  | succ k ih =>
    intro c
    rw [show k + 1 = 1 + k from by omega, ← List.rotate_rotate, ih (c.rotate 1),
      shoelaceSum_rotate_one]

theorem reverse_rotate_one {α : Type _} (l : List α) :
    ((l.rotate 1).reverse).rotate 1 = l.reverse := by
  cases l with
  | nil => simp
  | cons a t =>
    rw [rotate_one_cons, List.reverse_append, List.reverse_cons]
    simp [rotate_one_cons]

theorem zip_reverse {α β : Type _} (l : List α) (m : List β) (h : l.length = m.length) :
    (l.zip m).reverse = l.reverse.zip m.reverse := by
  induction l generalizing m with
  | nil =>
    cases m with
    | nil => simp
    | cons b s => simp at h
  | cons a t ih =>
    cases m with
    | nil => simp at h
    | cons b s =>
      have ht : t.length = s.length := by simpa using h
      rw [List.zip_cons_cons, List.reverse_cons, List.reverse_cons, List.reverse_cons,
        ih s ht, List.zip_append (by simp [ht])]
      simp

theorem sum_map_neg_eq {α : Type _} (l : List α) (f : α → ℝ) :
    (l.map (fun x => -f x)).sum = -(l.map f).sum := by
  induction l with
  | nil => simp
  | cons a t ih => simp [ih]; ring

theorem shoelaceSum_reverse (c : List (ℝ × ℝ)) :
    shoelaceSum c.reverse = -shoelaceSum c := by
  have hedges : c.reverse.zip (c.reverse.rotate 1) =
      (((c.zip (c.rotate 1)).map Prod.swap).reverse).rotate 1 := by
    rw [List.zip_swap, zip_reverse (c.rotate 1) c (by rw [List.length_rotate]),
      ← zip_rotate_one ((c.rotate 1).reverse) c.reverse (by simp),
      reverse_rotate_one]
  unfold shoelaceSum
  rw [hedges, List.map_rotate]
  rw [(List.rotate_perm _ _).sum_eq, List.map_reverse, List.sum_reverse, List.map_map]
  rw [show ((fun pq : (ℝ × ℝ) × ℝ × ℝ => pq.1.1 * pq.2.2 - pq.2.1 * pq.1.2) ∘ Prod.swap) =
      (fun pq : (ℝ × ℝ) × ℝ × ℝ => -(pq.1.1 * pq.2.2 - pq.2.1 * pq.1.2)) from
    funext (fun pq => by simp [Prod.swap]; try ring)]
  exact sum_map_neg_eq _ _


theorem zip_tail_succ {α : Type _} : ∀ (l : List α) (x : α) (h : l ≠ []),
    l.zip (l.tail ++ [x]) = l.dropLast.zip l.tail ++ [(l.getLast h, x)]
  | [a], x, _ => by simp
  | a :: b :: s, x, _ => by
    have ih := zip_tail_succ (b :: s) x (List.cons_ne_nil _ _)
    simp only [List.tail_cons] at ih ⊢
    rw [show ((b :: s) ++ [x] : List α) = b :: (s ++ [x]) from rfl, List.zip_cons_cons, ih,
      show ((a :: b :: s).dropLast : List α) = a :: (b :: s).dropLast from rfl,
      List.zip_cons_cons, List.getLast_cons (List.cons_ne_nil _ _)]
    rfl

theorem zip_tail_self {α : Type _} : ∀ (l : List α), l ≠ [] →
    l.zip l.tail = l.dropLast.zip l.tail
  | [a], _ => by simp
  | a :: b :: s, _ => by
    have ih := zip_tail_self (b :: s) (List.cons_ne_nil _ _)
    simp only [List.tail_cons] at ih ⊢
    rw [List.zip_cons_cons, ih,
      show ((a :: b :: s).dropLast : List α) = a :: (b :: s).dropLast from rfl,
      List.zip_cons_cons]

/-- For three or more points that all pass the NaN filter, the perimeter
(consecutive edges plus the closing edge) equals the sum over the cyclic
edge list `l.zip (l.rotate 1)`. -/
theorem perimeter_cyclic (l : List Pt) (h3 : 3 ≤ l.length)
    (hv : validPoints l = l) :
    calculatePerimeter l =
      ((l.zip (l.rotate 1)).map
        (fun pq => calculateDistance pq.1.lat pq.1.lng pq.2.lat pq.2.lng)).sum := by
  match l, h3, hv with
  | p0 :: p1 :: rest2, h3, hv =>
    have hne : (p0 :: p1 :: rest2 : List Pt) ≠ [] := List.cons_ne_nil _ _
    have hrot : (p0 :: p1 :: rest2 : List Pt).rotate 1 =
        (p0 :: p1 :: rest2 : List Pt).tail ++ [p0] := by
      rw [rotate_one_cons]; rfl
    rw [hrot, zip_tail_succ (p0 :: p1 :: rest2) p0 hne, List.map_append, List.sum_append]
    simp only [calculatePerimeter, hv]
    rw [if_pos (by simp at h3 ⊢; omega), zip_tail_self (p0 :: p1 :: rest2) hne]
    simp

/-- One-step cyclic rotation invariance of the perimeter over all-valid
point lists. -/
theorem perimeter_rotate_one (points : List Pt)
    (hvalid : ∀ p ∈ points, (p.lat.isSome && p.lng.isSome) = true) :
    calculatePerimeter (points.rotate 1) = calculatePerimeter points := by
  have hv : validPoints points = points := List.filter_eq_self.mpr hvalid
  have hv1 : validPoints (points.rotate 1) = points.rotate 1 :=
    List.filter_eq_self.mpr (fun p hp => hvalid p (List.mem_rotate.mp hp))
  match points, hvalid, hv, hv1 with
  | [], _, _, _ => simp
  | [a], _, _, _ => rw [List.rotate_singleton]
  | [a, b], _, hv, hv1 =>
    have hr : ([a, b] : List Pt).rotate 1 = [b, a] := by
      rw [rotate_one_cons]; rfl
    rw [hr] at hv1 ⊢
    simp only [calculatePerimeter, hv, hv1]
    simp only [List.zip_cons_cons, List.zip_nil_right, List.map_cons, List.map_nil,
      List.sum_cons, List.sum_nil, List.tail_cons]
    rw [if_neg (by simp), if_neg (by simp)]
    rw [calculateDistance_symm]
  | p0 :: p1 :: p2 :: rest, hvalid, hv, hv1 =>
    have h3 : 3 ≤ (p0 :: p1 :: p2 :: rest : List Pt).length := by simp
    have h3r : 3 ≤ ((p0 :: p1 :: p2 :: rest : List Pt).rotate 1).length := by
      rw [List.length_rotate]; exact h3
    rw [perimeter_cyclic _ h3r hv1, perimeter_cyclic _ h3 hv]
    rw [zip_rotate_one _ _ (by rw [List.length_rotate]), List.map_rotate]
    exact (List.rotate_perm _ _).sum_eq

/-- Cyclic rotation invariance of the perimeter over all-valid lists. -/
theorem perimeter_rotate (k : ℕ) : ∀ points : List Pt,
    (∀ p ∈ points, (p.lat.isSome && p.lng.isSome) = true) →
    calculatePerimeter (points.rotate k) = calculatePerimeter points := by
  induction k with
  | zero => intro points _; rw [List.rotate_zero]
  | succ k ih =>
    intro points hvalid
    rw [show k + 1 = 1 + k from by omega, ← List.rotate_rotate,
      ih (points.rotate 1) (fun p hp => hvalid p (List.mem_rotate.mp hp)),
      perimeter_rotate_one points hvalid]

/-- Rotation invariance of the UTM-path area over all-valid lists: every
point is projected independently of its position in the list, and the
shoelace sum is invariant under cyclic rotation. -/
theorem area_utm_rotate (f : Projector) (k : ℕ) (points : List Pt)
    (hvalid : ∀ p ∈ points, (p.lat.isSome && p.lng.isSome) = true) :
    calculateArea (some f) (points.rotate k) = calculateArea (some f) points := by
  have hv : validPoints points = points := List.filter_eq_self.mpr hvalid
  have hvr : validPoints (points.rotate k) = points.rotate k :=
    List.filter_eq_self.mpr (fun p hp => hvalid p (List.mem_rotate.mp hp))
  simp only [calculateArea, hv, hvr, List.length_rotate]
  split_ifs with h1
  · rfl
  · simp only [utmArea, List.map_rotate, shoelaceSum_rotate]

/-- Winding-reversal invariance of the UTM-path area magnitude over
all-valid lists: reversal negates the shoelace sum, and the absolute
value removes the sign. -/
theorem area_utm_reverse (f : Projector) (points : List Pt)
    (hvalid : ∀ p ∈ points, (p.lat.isSome && p.lng.isSome) = true) :
    calculateArea (some f) points.reverse = calculateArea (some f) points := by
  have hv : validPoints points = points := List.filter_eq_self.mpr hvalid
  have hvr : validPoints points.reverse = points.reverse :=
    List.filter_eq_self.mpr (fun p hp => hvalid p (List.mem_reverse.mp hp))
  simp only [calculateArea, hv, hvr, List.length_reverse]
  split_ifs with h1
  · rfl
  · simp only [utmArea, List.map_reverse, shoelaceSum_reverse, abs_neg]

/-- C8 (amended): over lists of valid (non-NaN) points, the perimeter is
invariant under every cyclic rotation, and on the UTM path (projector
available) the area is invariant under every cyclic rotation and its
magnitude under reversal of winding order.  (The spherical fallback path
is not rotation-invariant: its local frame is anchored at the first
vertex — see the counterexample.) -/
theorem c8_rotation_reversal_invariance (f : Projector) (k : ℕ) (points : List Pt)
    (hvalid : ∀ p ∈ points, (p.lat.isSome && p.lng.isSome) = true) :
    calculatePerimeter (points.rotate k) = calculatePerimeter points ∧
    calculateArea (some f) (points.rotate k) = calculateArea (some f) points ∧
    calculateArea (some f) points.reverse = calculateArea (some f) points :=
  ⟨perimeter_rotate k points hvalid, area_utm_rotate f k points hvalid,
    area_utm_reverse f points hvalid⟩

/-- Witness for the amended C8 at the concrete three-point list, rotation
by one, and the concrete projector. -/
theorem c8_rotation_reversal_invariance_witness :
    (∀ p ∈ ([exP1, exP2, exP3] : List Pt), (p.lat.isSome && p.lng.isSome) = true) ∧
    (calculatePerimeter (([exP1, exP2, exP3] : List Pt).rotate 1) =
        calculatePerimeter [exP1, exP2, exP3] ∧
      calculateArea (some exProj) (([exP1, exP2, exP3] : List Pt).rotate 1) =
        calculateArea (some exProj) [exP1, exP2, exP3] ∧
      calculateArea (some exProj) ([exP1, exP2, exP3] : List Pt).reverse =
        calculateArea (some exProj) [exP1, exP2, exP3]) :=
  ⟨by simp [exP1, exP2, exP3],
    c8_rotation_reversal_invariance exProj 1 [exP1, exP2, exP3] (by simp [exP1, exP2, exP3])⟩

theorem dist_0_0_0_180 : calculateDistance (some 0) (some 0) (some 0) (some 180) = R * π := by
  apply dist_eq_of_haversine_one
  rw [show ((0:ℝ) - 0) * π / 180 / 2 = 0 by ring, show ((180:ℝ) - 0) * π / 180 / 2 = π / 2 by ring,
    show (0:ℝ) * π / 180 = 0 by ring, Real.sin_zero, Real.sin_pi_div_two, Real.cos_zero]
  ring

theorem dist_0_0_60_0 : calculateDistance (some 0) (some 0) (some 60) (some 0) = R * (π / 3) := by
  apply dist_eq_of_haversine_quarter
  rw [show ((60:ℝ) - 0) * π / 180 / 2 = π / 6 by ring, show ((0:ℝ) - 0) * π / 180 / 2 = 0 by ring,
    Real.sin_pi_div_six, Real.sin_zero]
  ring

theorem dist_60_0_60_180 :
    calculateDistance (some 60) (some 0) (some 60) (some 180) = R * (π / 3) := by
  apply dist_eq_of_haversine_quarter
  rw [show ((60:ℝ) - 60) * π / 180 / 2 = 0 by ring,
    show ((180:ℝ) - 0) * π / 180 / 2 = π / 2 by ring,
    show (60:ℝ) * π / 180 = π / 3 by ring, Real.sin_zero, Real.sin_pi_div_two,
    Real.cos_pi_div_three]
  ring

theorem dist_60_0_0_0 : calculateDistance (some 60) (some 0) (some 0) (some 0) = R * (π / 3) := by
  apply dist_eq_of_haversine_quarter
  rw [show ((0:ℝ) - 60) * π / 180 / 2 = -(π / 6) by ring,
    show ((0:ℝ) - 0) * π / 180 / 2 = 0 by ring, Real.sin_neg, Real.sin_pi_div_six, Real.sin_zero]
  ring

theorem c8_fallback_area_1 :
    calculateArea none [exP1, cxB, cxC] = R * π * (R * (π / 3)) / 2 := by
  have hval : validPoints [exP1, cxB, cxC] = [exP1, cxB, cxC] := by
    simp [validPoints, exP1, cxB, cxC]
  simp only [calculateArea, hval]
  rw [if_neg (by simp), if_neg (by simp)]
  simp only [sphericalArea, fallbackCoord, exP1, cxB, cxC, List.map_cons, List.map_nil]
  rw [calculateDistance_self 0 0, dist_0_0_0_180, dist_0_0_60_0]
  rw [if_neg (show ¬ jsGT (some (0:ℝ)) (some 0) from by norm_num [jsGT]),
    if_pos (show jsGT (some (180:ℝ)) (some 0) from by norm_num [jsGT]),
    if_pos (show jsGT (some (60:ℝ)) (some 0) from by norm_num [jsGT])]
  simp only [shoelaceSum, rotate_one_cons, List.cons_append, List.nil_append,
    List.zip_cons_cons, List.zip_nil_right, List.map_cons, List.map_nil,
    List.sum_cons, List.sum_nil]
  rw [show (0:ℝ) * -1 * (0 * -1) - R * π * 1 * (0 * -1) +
      (R * π * 1 * (R * (π / 3) * 1) - 0 * -1 * (0 * -1) +
        (0 * -1 * (0 * -1) - 0 * -1 * (R * (π / 3) * 1) + 0)) = R * π * (R * (π / 3)) by ring]
  rw [abs_of_nonneg (by rw [R]; positivity)]

theorem c8_fallback_area_2 :
    calculateArea none [cxC, exP1, cxB] = R * (π / 3) * (R * (π / 3)) / 2 := by
  have hval : validPoints [cxC, exP1, cxB] = [cxC, exP1, cxB] := by
    simp [validPoints, exP1, cxB, cxC]
  simp only [calculateArea, hval]
  rw [if_neg (by simp), if_neg (by simp)]
  simp only [sphericalArea, fallbackCoord, exP1, cxB, cxC, List.map_cons, List.map_nil]
  rw [calculateDistance_self 60 0, dist_60_0_0_0, dist_60_0_60_180]
  rw [if_neg (show ¬ jsGT (some (0:ℝ)) (some 0) from by norm_num [jsGT]),
    if_pos (show jsGT (some (180:ℝ)) (some 0) from by norm_num [jsGT]),
    if_neg (show ¬ jsGT (some (60:ℝ)) (some 60) from by norm_num [jsGT]),
    if_neg (show ¬ jsGT (some (0:ℝ)) (some 60) from by norm_num [jsGT])]
  simp only [shoelaceSum, rotate_one_cons, List.cons_append, List.nil_append,
    List.zip_cons_cons, List.zip_nil_right, List.map_cons, List.map_nil,
    List.sum_cons, List.sum_nil]
  rw [show (0:ℝ) * -1 * (R * (π / 3) * -1) - 0 * -1 * (0 * -1) +
      (0 * -1 * (R * (π / 3) * -1) - R * (π / 3) * 1 * (R * (π / 3) * -1) +
        (R * (π / 3) * 1 * (0 * -1) - 0 * -1 * (R * (π / 3) * -1) + 0)) =
      R * (π / 3) * (R * (π / 3)) by ring]
  rw [abs_of_nonneg (by rw [R]; positivity)]

/-- C8 counterexample: the spherical fallback area (projector absent) is
not invariant under cyclic rotation.  For the triangle (0°,0°),
(0°,180°), (60°,0°), starting the list at the first vertex gives area
R²π²/6 while the rotation starting at the third vertex gives R²π²/18:
the fallback's local x/y frame is anchored at the first vertex, and
distances along a parallel shrink with latitude. -/
theorem c8_counterexample :
    calculateArea none (([exP1, cxB, cxC] : List Pt).rotate 2) ≠
      calculateArea none [exP1, cxB, cxC] := by
  have hrot : ([exP1, cxB, cxC] : List Pt).rotate 2 = [cxC, exP1, cxB] := by
    rw [show (2:ℕ) = 1 + 1 from rfl, ← List.rotate_rotate]
    simp [rotate_one_cons]
  rw [hrot, c8_fallback_area_2, c8_fallback_area_1, R]
  intro h
  nlinarith [Real.pi_pos, mul_pos Real.pi_pos Real.pi_pos]
